import Mathlib

/-
Verification of the catalog filter engine in src/app.js.

The file shallowly embeds the script state and its functions:
  - getWheels, getUnique, filterWheels, clearFilters (translated line by line),
  - the JavaScript builtins they call (parseFloat, Array.prototype.sort with a
    numeric comparator, Set-based deduplication, String.prototype.includes,
    String.prototype.toLowerCase), modelled over List Char and Rat,
  - the copyCmd setTimeout behaviour, as a discrete timed-event model.

Machine floats are modelled by exact rationals: parseFloat is translated to a
JSNum value (NaN, signed infinity, or a rational); IEEE rounding of the decimal
literal is not modelled, which only matters for strings whose rational values
differ by less than one double ulp. toLowerCase is modelled over the ASCII
range, which covers every string the catalog and the claims use.
-/

namespace FlashWheels

/-- A catalog entry, with the field names used by the data arrays that app.js
reads: v (version), cuda, py, torch, os (platform), url, size. -/
structure Wheel where
  v : String
  cuda : String
  py : String
  torch : String
  os : String
  url : String
  size : String
deriving DecidableEq, Repr

/-- The two static data arrays flashAttn2 and flashAttn3 that app.js consumes. -/
structure Catalog where
  flashAttn2 : List Wheel
  flashAttn3 : List Wheel
deriving DecidableEq, Repr

/-- The global `filters` object of app.js (line 3). -/
structure Filters where
  cuda : String
  python : String
  pytorch : String
  platform : String
deriving DecidableEq, Repr

/-- The mutable globals of app.js: currentVersion (line 2), filters (line 3),
searchQuery (line 4), plus the value of the search input DOM element, which
clearFilters also writes (line 181) and which the filtering never reads. -/
structure AppState where
  currentVersion : String
  filters : Filters
  searchQuery : String
  searchInput : String
deriving DecidableEq, Repr

/-- The four facet dropdowns populated by populateFilters. -/
inductive Facet where
  | cuda
  | python
  | pytorch
  | platform
deriving DecidableEq, Repr

/-- The wheel-object key that populateFilters passes to getUnique for each
facet: getUnique('cuda'), getUnique('py'), getUnique('torch'), getUnique('os')
(lines 39-53). -/
def wheelKey : Facet → Wheel → String
  | .cuda, w => w.cuda
  | .python, w => w.py
  | .pytorch, w => w.torch
  | .platform, w => w.os

/-- app.js lines 14-18: getWheels. Any currentVersion other than the exact
strings "2" and "3" falls through to the concatenation. -/
def getWheels (cat : Catalog) (currentVersion : String) : List Wheel :=
  if currentVersion = "2" then cat.flashAttn2
  else if currentVersion = "3" then cat.flashAttn3
  else cat.flashAttn2 ++ cat.flashAttn3

/-- The value of a JavaScript number as produced by parseFloat: NaN, a signed
infinity (true = negative), or a finite value, kept exact as a rational. -/
inductive JSNum where
  | nan : JSNum
  | inf : Bool → JSNum
  | fin : ℚ → JSNum
deriving DecidableEq

/-- True when the parsed number is finite. -/
def JSNum.isFin : JSNum → Bool
  | .fin _ => true
  | _ => false

/-- The whitespace characters that parseFloat skips (modelled over ASCII). -/
def jsIsSpace (c : Char) : Bool :=
  c = ' ' || c = '\t' || c = '\n' || c = '\r' || c.toNat = 11 || c.toNat = 12

/-- Numeric value of a decimal digit character. -/
def digitVal (c : Char) : ℕ := c.toNat - 48

/-- Value of a list of decimal digit characters, most significant first. -/
def natOfDigits (ds : List Char) : ℕ := ds.foldl (fun n c => 10 * n + digitVal c) 0

/-- The JavaScript parseFloat builtin that getUnique applies to facet values
(app.js line 24): skip leading whitespace, an optional sign, then the longest
prefix that is Infinity or a decimal literal with optional fraction and
exponent; anything else gives NaN. Hex is not recognised, so a string such as
0x11 parses as 0, and a string with no leading numeric prefix gives NaN. -/
def parseFloat (s : String) : JSNum :=
  let cs0 := s.toList.dropWhile jsIsSpace
  let signRest : Bool × List Char :=
    match cs0 with
    | '-' :: r => (true, r)
    | '+' :: r => (false, r)
    | r => (false, r)
  let neg := signRest.1
  let cs := signRest.2
  if cs.take 8 = "Infinity".toList then JSNum.inf neg
  else
    let ip := cs.takeWhile Char.isDigit
    let rest1 := cs.dropWhile Char.isDigit
    let fp : List Char :=
      match rest1 with
      | '.' :: r => r.takeWhile Char.isDigit
      | _ => []
    let rest2 : List Char :=
      match rest1 with
      | '.' :: r => r.dropWhile Char.isDigit
      | _ => rest1
    if ip.isEmpty && fp.isEmpty then JSNum.nan
    else
      let mant : ℚ := mkRat (natOfDigits (ip ++ fp)) (10 ^ fp.length)
      let etext : List Char :=
        match rest2 with
        | 'e' :: r => r
        | 'E' :: r => r
        | _ => []
      let eSignDigits : Bool × List Char :=
        match etext with
        | '-' :: r => (true, r.takeWhile Char.isDigit)
        | '+' :: r => (false, r.takeWhile Char.isDigit)
        | r => (false, r.takeWhile Char.isDigit)
      let eMag := natOfDigits eSignDigits.2
      let scaled : ℚ :=
        if eSignDigits.1 then mant * mkRat 1 (10 ^ eMag)
        else mant * mkRat (10 ^ eMag) 1
      JSNum.fin (if neg then -scaled else scaled)

/-- Sign of the comparator (a, b) => parseFloat(b) - parseFloat(a) that
getUnique passes to sort (app.js line 24), with the ECMAScript coercion of a
NaN comparator result to +0 (treated as equal). -/
def jsCompare (a b : String) : Int :=
  match parseFloat a, parseFloat b with
  | .nan, _ => 0
  | _, .nan => 0
  | .inf sa, .inf sb => if sa = sb then 0 else if sa then 1 else -1
  | .inf sa, .fin _ => if sa then 1 else -1
  | .fin _, .inf sb => if sb then -1 else 1
  | .fin qa, .fin qb => if qb < qa then -1 else if qa < qb then 1 else 0

/-- The sort order induced by the comparator: a may be placed before b when the
comparator value is not positive. -/
def jsSortLe (a b : String) : Prop := jsCompare a b ≤ 0

instance : DecidableRel jsSortLe := fun a b => Int.decLe (jsCompare a b) 0

/-- The deduplication [...new Set(xs)] on app.js line 23: one copy of each
value, in order of first occurrence. List.dedup keeps the last occurrence of
each value, so the first-occurrence order is dedup applied to the reversal. -/
def setDedup (l : List String) : List String := l.reverse.dedup.reverse

/-- app.js lines 21-25: getUnique. The Set deduplication followed by
values.sort((a, b) => parseFloat(b) - parseFloat(a)); ECMAScript sort is
stable, modelled by insertion sort on the comparator order. -/
def getUnique (cat : Catalog) (currentVersion : String) (key : Facet) : List String :=
  List.insertionSort jsSortLe (setDedup ((getWheels cat currentVersion).map (wheelKey key)))

/-- Whether the character list hay begins with the character list needle. -/
def listStartsWith : List Char → List Char → Bool
  | _, [] => true
  | [], _ :: _ => false
  | a :: as, b :: bs => if a = b then listStartsWith as bs else false

/-- Substring scan over character lists: needle occurs somewhere in hay. -/
def jsIncludesCore : List Char → List Char → Bool
  | [], needle => needle.isEmpty
  | c :: t, needle => listStartsWith (c :: t) needle || jsIncludesCore t needle

/-- The String.prototype.includes builtin used on app.js lines 70-71. -/
def jsIncludes (hay needle : String) : Bool := jsIncludesCore hay.toList needle.toList

/-- The String.prototype.toLowerCase builtin (app.js lines 69 and 71),
modelled over the ASCII range. -/
def jsToLower (s : String) : String := String.mk (s.toList.map Char.toLower)

/-- app.js lines 68-72: the search branch of the filter callback. The query is
lowercased once (line 69) and then tested with includes against v, cuda, py
and torch as they are, and against os lowercased. -/
def searchPred (w : Wheel) (searchQuery : String) : Bool :=
  let q := jsToLower searchQuery
  jsIncludes w.v q || jsIncludes w.cuda q || jsIncludes w.py q ||
    jsIncludes w.torch q || jsIncludes (jsToLower w.os) q

/-- app.js lines 62-75: the callback passed to filter. Each facet clause
returns false early on a mismatch; when searchQuery is truthy (non-empty) the
final result is the search test, otherwise true. -/
def wheelPred (f : Filters) (searchQuery : String) (w : Wheel) : Bool :=
  if f.cuda ≠ "all" ∧ w.cuda ≠ f.cuda then false
  else if f.python ≠ "all" ∧ w.py ≠ f.python then false
  else if f.pytorch ≠ "all" ∧ w.torch ≠ f.pytorch then false
  else if f.platform ≠ "all" ∧ w.os ≠ f.platform then false
  else if searchQuery ≠ "" then searchPred w searchQuery
  else true

/-- app.js line 63: filterWheels = getWheels().filter(...). -/
def filterWheels (cat : Catalog) (st : AppState) : List Wheel :=
  (getWheels cat st.currentVersion).filter (wheelPred st.filters st.searchQuery)

/-- The conjunction of the four facet-equality constraints of the filter. -/
def facetsPass (f : Filters) (w : Wheel) : Prop :=
  (f.cuda = "all" ∨ w.cuda = f.cuda) ∧ (f.python = "all" ∨ w.py = f.python) ∧
    (f.pytorch = "all" ∨ w.torch = f.pytorch) ∧ (f.platform = "all" ∨ w.os = f.platform)

instance (f : Filters) (w : Wheel) : Decidable (facetsPass f w) := by
  unfold facetsPass; infer_instance

/-- app.js lines 178-184: clearFilters resets the filters object and the
search query (and the search input element), touching nothing else. -/
def clearFilters (st : AppState) : AppState :=
  { st with
    filters := { cuda := "all", python := "all", pytorch := "all", platform := "all" }
    searchQuery := ""
    searchInput := "" }

/-- A filters object with a single facet constrained and the others "all". -/
def singleFilter : Facet → String → Filters
  | .cuda, val => { cuda := val, python := "all", pytorch := "all", platform := "all" }
  | .python, val => { cuda := "all", python := val, pytorch := "all", platform := "all" }
  | .pytorch, val => { cuda := "all", python := "all", pytorch := val, platform := "all" }
  | .platform, val => { cuda := "all", python := "all", pytorch := "all", platform := val }

/-- The DerivedView of the spec: the filtered entries plus the four facet
value lists derived for the current scope. -/
structure DerivedView where
  visible : List Wheel
  cudaValues : List String
  pythonValues : List String
  pytorchValues : List String
  platformValues : List String
deriving DecidableEq, Repr

/-- The derived view recomputed from a state, as render and populateFilters
do on every state change. -/
def derivedView (cat : Catalog) (st : AppState) : DerivedView :=
  { visible := filterWheels cat st
    cudaValues := getUnique cat st.currentVersion .cuda
    pythonValues := getUnique cat st.currentVersion .python
    pytorchValues := getUnique cat st.currentVersion .pytorch
    platformValues := getUnique cat st.currentVersion .platform }

/-- The order on parsed values that the claim about getUnique asserts:
descending by the parseFloat value, with the IEEE comparison semantics under
which no comparison with NaN holds. -/
def jsNumGe : JSNum → JSNum → Bool
  | .nan, _ => false
  | _, .nan => false
  | .fin x, .fin y => decide (y ≤ x)
  | .fin _, .inf s => s
  | .inf s, .fin _ => !s
  | .inf s, .inf t => !s || t

/-- Adjacent-pair check that a list of strings is in descending order of the
numbers obtained by parsing each string as a float. -/
def sortedByParseFloatDesc : List String → Bool
  | [] => true
  | [_] => true
  | a :: b :: t => jsNumGe (parseFloat a) (parseFloat b) && sortedByParseFloatDesc (b :: t)

/-- The search predicate the claims describe: a case-insensitive substring
test, lowercasing both the query and every one of the five fields. -/
def ciSearch (w : Wheel) (searchQuery : String) : Bool :=
  let q := jsToLower searchQuery
  jsIncludes (jsToLower w.v) q || jsIncludes (jsToLower w.cuda) q ||
    jsIncludes (jsToLower w.py) q || jsIncludes (jsToLower w.torch) q ||
    jsIncludes (jsToLower w.os) q

/-- app.js lines 158-175: each call of copyCmd at time t (milliseconds, taken
at the point the clipboard promise resolves) adds the copied class at t and
schedules a callback at t + 1500 that removes it; no call ever clears a
previously scheduled timeout. The events of a list of invocation times, in
time order (ECMAScript sort stability modelled by insertion sort; the concrete
inputs used below have pairwise distinct event times). Each event carries the
copied flag it writes. -/
def copyCmdEvents (invocations : List ℕ) : List (ℕ × Bool) :=
  List.insertionSort (fun e1 e2 : ℕ × Bool => e1.1 ≤ e2.1)
    ((invocations.map fun t => (t, true)) ++ invocations.map fun t => (t + 1500, false))

/-- Whether the copied indicator is shown at time now: the flag written by the
last event at or before now, initially false. -/
def buttonCopied (invocations : List ℕ) (now : ℕ) : Bool :=
  ((copyCmdEvents invocations).filter fun e => decide (e.1 ≤ now)).foldl
    (fun _ e => e.2) false

/-- The successive values of the copied flag: the initial false followed by
the flag written by each event in time order. -/
def copiedTrajectory (invocations : List ℕ) : List Bool :=
  false :: (copyCmdEvents invocations).map Prod.snd

/-- How many times the indicator visibly reverts: the number of adjacent
true-to-false transitions of the flag trajectory. -/
def revertCount (invocations : List ℕ) : ℕ :=
  ((copiedTrajectory invocations).zip (copiedTrajectory invocations).tail).countP
    fun p => p.1 && !p.2

/-- The first entry of the sample catalog below. -/
def sampleWheelA : Wheel :=
  { v := "2.8.3", cuda := "12.1", py := "3.10", torch := "2.4",
    os := "linux_x86_64", url := "https://example.com/fa2-a.whl", size := "180 MB" }

/-- The second entry of the sample catalog below. -/
def sampleWheelB : Wheel :=
  { v := "2.8.3", cuda := "11.8", py := "3.11", torch := "2.3",
    os := "win_amd64", url := "https://example.com/fa2-b.whl", size := "170 MB" }

/-- Modelled from the spec: the static wheel data file holding the flashAttn2
and flashAttn3 arrays is not under src (app.js only reads them), so a concrete
catalog is reconstructed from the data model of the spec and the README:
family-2 entries carry versions with leading digit 2 and family-3 entries
leading digit 3, and the platform values range over linux_x86_64,
linux_aarch64 and win_amd64. -/
def sampleCatalog : Catalog :=
  { flashAttn2 :=
      [sampleWheelA,
       sampleWheelB,
       { v := "2.7.4", cuda := "12.4", py := "3.12", torch := "2.5",
         os := "linux_aarch64", url := "https://example.com/fa2-c.whl", size := "175 MB" }]
    flashAttn3 :=
      [{ v := "3.0.0", cuda := "12.8", py := "3.12", torch := "2.8",
         os := "linux_x86_64", url := "https://example.com/fa3-a.whl", size := "200 MB" }] }

/-- The default filters object, as initialised on app.js line 3. -/
def defaultFilters : Filters :=
  { cuda := "all", python := "all", pytorch := "all", platform := "all" }

/-- A state with an active cuda facet filter and an active search text: the
search text matches sampleWheelB, the cuda filter excludes it. -/
def c1State : AppState :=
  { currentVersion := "all", filters := { cuda := "12.1", python := "all", pytorch := "all", platform := "all" },
    searchQuery := "11.8", searchInput := "11.8" }

/-- A wheel whose version field contains uppercase letters and whose other
fields avoid the letters of the probe query. -/
def c4Wheel : Wheel :=
  { v := "ABC", cuda := "zz", py := "zz", torch := "zz", os := "zz",
    url := "u", size := "s" }

/-- A default state scoped to version family 2. -/
def scopeTwoState : AppState :=
  { currentVersion := "2", filters := defaultFilters, searchQuery := "", searchInput := "" }

theorem getWheels_two (cat : Catalog) : getWheels cat "2" = cat.flashAttn2 := by
  unfold getWheels; rw [if_pos rfl]

theorem getWheels_three (cat : Catalog) : getWheels cat "3" = cat.flashAttn3 := by
  unfold getWheels; rw [if_neg (by decide), if_pos rfl]

theorem getWheels_fallthrough (cat : Catalog) (cv : String) (h2 : cv ≠ "2") (h3 : cv ≠ "3") :
    getWheels cat cv = cat.flashAttn2 ++ cat.flashAttn3 := by
  unfold getWheels; rw [if_neg h2, if_neg h3]

theorem listStartsWith_iff (hay needle : List Char) :
    listStartsWith hay needle = true ↔ ∃ t, needle ++ t = hay := by
  induction hay generalizing needle with
  | nil =>
    cases needle with
    | nil => simp [listStartsWith]
    | cons b bs => simp [listStartsWith]
  | cons a as ih =>
    cases needle with
    | nil => simp [listStartsWith]
    | cons b bs =>
      rw [listStartsWith]
      split_ifs with hab
      · subst hab
        rw [ih bs]
        constructor
        · rintro ⟨t, ht⟩
          exact ⟨t, by rw [List.cons_append, ht]⟩
        · rintro ⟨t, ht⟩
          rw [List.cons_append] at ht
          injection ht with h1 h2
          exact ⟨t, h2⟩
      · simp only [Bool.false_eq_true, false_iff]
        rintro ⟨t, ht⟩
        rw [List.cons_append] at ht
        injection ht with h1 h2
        exact hab h1.symm

theorem jsIncludesCore_iff (hay needle : List Char) :
    jsIncludesCore hay needle = true ↔ ∃ p t, p ++ needle ++ t = hay := by
  induction hay with
  | nil =>
    rw [jsIncludesCore, List.isEmpty_iff]
    constructor
    · intro h
      exact ⟨[], [], by simp [h]⟩
    · rintro ⟨p, t, ht⟩
      rcases List.append_eq_nil.mp ht with ⟨hpn, hnt⟩
      exact (List.append_eq_nil.mp hpn).2
  | cons a as ih =>
    rw [jsIncludesCore]
    simp only [Bool.or_eq_true, listStartsWith_iff, ih]
    constructor
    · rintro (⟨t, ht⟩ | ⟨p, t, ht⟩)
      · exact ⟨[], t, by simpa using ht⟩
      · exact ⟨a :: p, t, by simp [ht]⟩
    · rintro ⟨p, t, ht⟩
      cases p with
      | nil => exact Or.inl ⟨t, by simpa using ht⟩
      | cons x xs =>
        rw [List.cons_append, List.cons_append] at ht
        injection ht with h1 h2
        exact Or.inr ⟨xs, t, h2⟩

theorem wheelPred_iff (f : Filters) (q : String) (w : Wheel) :
    wheelPred f q w = true ↔ facetsPass f w ∧ (q ≠ "" → searchPred w q = true) := by
  unfold wheelPred facetsPass
  split_ifs with h1 h2 h3 h4 h5
  · simp only [Bool.false_eq_true, false_iff]
    rintro ⟨⟨hc, _, _, _⟩, _⟩
    rcases hc with hc | hc
    · exact h1.1 hc
    · exact h1.2 hc
  · simp only [Bool.false_eq_true, false_iff]
    rintro ⟨⟨_, hc, _, _⟩, _⟩
    rcases hc with hc | hc
    · exact h2.1 hc
    · exact h2.2 hc
  · simp only [Bool.false_eq_true, false_iff]
    rintro ⟨⟨_, _, hc, _⟩, _⟩
    rcases hc with hc | hc
    · exact h3.1 hc
    · exact h3.2 hc
  · simp only [Bool.false_eq_true, false_iff]
    rintro ⟨⟨_, _, _, hc⟩, _⟩
    rcases hc with hc | hc
    · exact h4.1 hc
    · exact h4.2 hc
  · constructor
    · intro hs
      refine ⟨⟨?_, ?_, ?_, ?_⟩, fun _ => hs⟩ <;> tauto
    · rintro ⟨_, hs⟩
      exact hs h5
  · constructor
    · intro _
      refine ⟨⟨?_, ?_, ?_, ?_⟩, fun hqn => absurd hqn h5⟩ <;> tauto
    · intro _
      rfl

theorem mem_setDedup (l : List String) (s : String) : s ∈ setDedup l ↔ s ∈ l := by
  simp [setDedup]

theorem nodup_setDedup (l : List String) : (setDedup l).Nodup := by
  unfold setDedup
  rw [List.nodup_reverse]
  exact l.reverse.nodup_dedup

theorem JSNum.isFin_iff (n : JSNum) : n.isFin = true ↔ ∃ q, n = .fin q := by
  cases n <;> simp [JSNum.isFin]

theorem jsSortLe_iff_of_fin (a b : String) (qa qb : ℚ) (ha : parseFloat a = .fin qa)
    (hb : parseFloat b = .fin qb) : jsSortLe a b ↔ qb ≤ qa := by
  unfold jsSortLe jsCompare
  rw [ha, hb]
  show (if qb < qa then (-1 : Int) else if qa < qb then 1 else 0) ≤ 0 ↔ qb ≤ qa
  split_ifs with h1 h2
  · exact ⟨fun _ => h1.le, fun _ => by decide⟩
  · exact ⟨fun h => absurd h (by decide), fun h => absurd h (not_le.mpr h2)⟩
  · exact ⟨fun _ => le_of_not_lt h2, fun _ => le_refl 0⟩

theorem jsSortLe_total_of_fin (a b : String) (qa qb : ℚ) (ha : parseFloat a = .fin qa)
    (hb : parseFloat b = .fin qb) : jsSortLe a b ∨ jsSortLe b a := by
  rw [jsSortLe_iff_of_fin a b qa qb ha hb, jsSortLe_iff_of_fin b a qb qa hb ha]
  exact le_total qb qa

theorem jsSortLe_trans_of_fin (a b c : String) (qa qb qc : ℚ) (ha : parseFloat a = .fin qa)
    (hb : parseFloat b = .fin qb) (hc : parseFloat c = .fin qc)
    (hab : jsSortLe a b) (hbc : jsSortLe b c) : jsSortLe a c := by
  rw [jsSortLe_iff_of_fin a b qa qb ha hb] at hab
  rw [jsSortLe_iff_of_fin b c qb qc hb hc] at hbc
  rw [jsSortLe_iff_of_fin a c qa qc ha hc]
  exact le_trans hbc hab

theorem pairwise_orderedInsert_fin (a : String) (l : List String)
    (hfin : ∀ s ∈ a :: l, (parseFloat s).isFin = true)
    (hl : l.Pairwise jsSortLe) :
    (List.orderedInsert jsSortLe a l).Pairwise jsSortLe := by
  induction l with
  | nil => simp [List.orderedInsert]
  | cons b t ih =>
    obtain ⟨qa, hqa⟩ := (JSNum.isFin_iff _).1 (hfin a (by simp))
    obtain ⟨qb, hqb⟩ := (JSNum.isFin_iff _).1 (hfin b (by simp))
    rw [List.orderedInsert]
    split_ifs with hab
    · refine List.Pairwise.cons ?_ hl
      intro y hy
      rcases List.mem_cons.mp hy with rfl | hyt
      · exact hab
      · obtain ⟨qy, hqy⟩ := (JSNum.isFin_iff _).1 (hfin y (by simp [hyt]))
        exact jsSortLe_trans_of_fin a b y qa qb qy hqa hqb hqy hab
          (List.rel_of_pairwise_cons hl hyt)
    · have hba : jsSortLe b a := by
        rcases jsSortLe_total_of_fin a b qa qb hqa hqb with h | h
        · exact absurd h hab
        · exact h
      refine List.Pairwise.cons ?_ (ih ?_ hl.of_cons)
      · intro y hy
        rcases (List.mem_orderedInsert jsSortLe).mp hy with rfl | hyt
        · exact hba
        · exact List.rel_of_pairwise_cons hl hyt
      · intro s hs
        rcases List.mem_cons.mp hs with rfl | hst
        · exact hfin s (by simp)
        · exact hfin s (by simp [hst])

theorem pairwise_insertionSort_fin (l : List String)
    (hfin : ∀ s ∈ l, (parseFloat s).isFin = true) :
    (List.insertionSort jsSortLe l).Pairwise jsSortLe := by
  induction l with
  | nil => simp [List.insertionSort]
  | cons a t ih =>
    rw [List.insertionSort]
    refine pairwise_orderedInsert_fin a _ ?_ (ih ?_)
    · intro s hs
      rcases List.mem_cons.mp hs with rfl | hst
      · exact hfin s (by simp)
      · exact hfin s (List.mem_cons_of_mem a ((List.mem_insertionSort jsSortLe).mp hst))
    · intro s hs
      exact hfin s (List.mem_cons_of_mem a hs)

theorem sortedBool_of_pairwise (l : List String)
    (hfin : ∀ s ∈ l, (parseFloat s).isFin = true)
    (h : l.Pairwise jsSortLe) : sortedByParseFloatDesc l = true := by
  induction l with
  | nil => rfl
  | cons a t ih =>
    cases t with
    | nil => rfl
    | cons b t2 =>
      obtain ⟨qa, hqa⟩ := (JSNum.isFin_iff _).1 (hfin a (by simp))
      obtain ⟨qb, hqb⟩ := (JSNum.isFin_iff _).1 (hfin b (by simp))
      have hab : jsSortLe a b := List.rel_of_pairwise_cons h (by simp)
      have h1 : jsNumGe (parseFloat a) (parseFloat b) = true := by
        rw [hqa, hqb]
        simp only [jsNumGe, decide_eq_true_eq]
        exact (jsSortLe_iff_of_fin a b qa qb hqa hqb).1 hab
      rw [sortedByParseFloatDesc, h1, Bool.true_and]
      exact ih (fun s hs => hfin s (List.mem_cons_of_mem a hs)) h.of_cons

/-- C1 (counterexample): with an active cuda facet filter of "12.1" and the
non-empty search text "11.8", the entry sampleWheelB matches the substring
search but is nevertheless excluded by filterWheels, because the facet clause
already returned false before the search branch runs: the search result does
not replace the facet-equality result. -/
theorem search_overrides_facets_counterexample :
    c1State.searchQuery ≠ "" ∧
    searchPred sampleWheelB c1State.searchQuery = true ∧
    sampleWheelB ∈ getWheels sampleCatalog c1State.currentVersion ∧
    sampleWheelB ∉ filterWheels sampleCatalog c1State := by
  decide

/-- C1 (amended): when searchText is non-empty, an entry is visible iff it is
in the current scope, passes every facet-equality filter, AND matches the
substring search: the search predicate replaces only the default acceptance of
the filter callback, not the facet-equality results, so search and facet
filters are intersected. -/
theorem search_intersects_facets (cat : Catalog) (st : AppState) (w : Wheel)
    (hq : st.searchQuery ≠ "") :
    w ∈ filterWheels cat st ↔
      w ∈ getWheels cat st.currentVersion ∧ facetsPass st.filters w ∧
        searchPred w st.searchQuery = true := by
  unfold filterWheels
  rw [List.mem_filter, wheelPred_iff]
  constructor
  · rintro ⟨hm, hf, hs⟩
    exact ⟨hm, hf, hs hq⟩
  · rintro ⟨hm, hf, hs⟩
    exact ⟨hm, hf, fun _ => hs⟩

/-- C1 (witness): the amended equivalence instantiated at the sample catalog,
the state with the cuda filter and search text of the counterexample, and
sampleWheelB. -/
theorem search_intersects_facets_witness :
    c1State.searchQuery ≠ "" ∧
    (sampleWheelB ∈ filterWheels sampleCatalog c1State ↔
      sampleWheelB ∈ getWheels sampleCatalog c1State.currentVersion ∧
        facetsPass c1State.filters sampleWheelB ∧
        searchPred sampleWheelB c1State.searchQuery = true) :=
  ⟨by decide, search_intersects_facets sampleCatalog c1State sampleWheelB (by decide)⟩

/-- C2: with a single facet set to a non-"all" value and the other facets
"all", every entry returned by filterWheels has the corresponding field
exactly string-equal to the filter value, whatever the scope and search text
are. -/
theorem single_facet_filter_exact (cat : Catalog) (cv q si : String) (fc : Facet)
    (val : String) (hval : val ≠ "all") (w : Wheel)
    (hw : w ∈ filterWheels cat
      { currentVersion := cv, filters := singleFilter fc val, searchQuery := q, searchInput := si }) :
    wheelKey fc w = val := by
  unfold filterWheels at hw
  have h := (List.mem_filter.mp hw).2
  rw [wheelPred_iff] at h
  have hf := h.1
  cases fc <;> simp only [singleFilter, facetsPass] at hf <;> rw [wheelKey] <;> tauto

/-- C2 (witness): the cuda facet constrained to "12.1" on the sample catalog
returns sampleWheelA, whose cuda field is "12.1". -/
theorem single_facet_filter_exact_witness :
    ("12.1" : String) ≠ "all" ∧
    sampleWheelA ∈ filterWheels sampleCatalog
      { currentVersion := "all", filters := singleFilter Facet.cuda "12.1",
        searchQuery := "", searchInput := "" } ∧
    wheelKey Facet.cuda sampleWheelA = "12.1" :=
  ⟨by decide, by decide,
    single_facet_filter_exact sampleCatalog "all" "" "" Facet.cuda "12.1" (by decide)
      sampleWheelA (by decide)⟩

/-- C3: when the two data arrays carry versions with leading digits 2 and 3
respectively, every entry computed by filterWheels under scope "2" has a
version with leading digit 2, under scope "3" leading digit 3, and under
scope "all" one of the two; and the result is a sublist of the scoped catalog,
hence in catalog order with no re-sorting. -/
theorem scope_family_and_order (cat : Catalog) (st : AppState)
    (h2 : ∀ w ∈ cat.flashAttn2, w.v.toList.head? = some '2')
    (h3 : ∀ w ∈ cat.flashAttn3, w.v.toList.head? = some '3')
    (hscope : st.currentVersion = "2" ∨ st.currentVersion = "3" ∨ st.currentVersion = "all") :
    (∀ w ∈ filterWheels cat st,
       (st.currentVersion = "2" → w.v.toList.head? = some '2') ∧
       (st.currentVersion = "3" → w.v.toList.head? = some '3') ∧
       (st.currentVersion = "all" →
         w.v.toList.head? = some '2' ∨ w.v.toList.head? = some '3')) ∧
    List.Sublist (filterWheels cat st) (getWheels cat st.currentVersion) := by
  constructor
  · intro w hw
    have hw2 : w ∈ getWheels cat st.currentVersion := List.mem_of_mem_filter hw
    refine ⟨?_, ?_, ?_⟩
    · intro hcv
      rw [hcv, getWheels_two] at hw2
      exact h2 w hw2
    · intro hcv
      rw [hcv, getWheels_three] at hw2
      exact h3 w hw2
    · intro hcv
      rw [hcv, getWheels_fallthrough cat "all" (by decide) (by decide)] at hw2
      rcases List.mem_append.mp hw2 with h | h
      · exact Or.inl (h2 w h)
      · exact Or.inr (h3 w h)
  · unfold filterWheels
    exact List.filter_sublist _

/-- C3 (witness): the scope and order guarantees instantiated at the sample
catalog with scope "2". -/
theorem scope_family_and_order_witness :
    (∀ w ∈ sampleCatalog.flashAttn2, w.v.toList.head? = some '2') ∧
    (∀ w ∈ sampleCatalog.flashAttn3, w.v.toList.head? = some '3') ∧
    ((∀ w ∈ filterWheels sampleCatalog scopeTwoState,
        (scopeTwoState.currentVersion = "2" → w.v.toList.head? = some '2') ∧
        (scopeTwoState.currentVersion = "3" → w.v.toList.head? = some '3') ∧
        (scopeTwoState.currentVersion = "all" →
          w.v.toList.head? = some '2' ∨ w.v.toList.head? = some '3')) ∧
     List.Sublist (filterWheels sampleCatalog scopeTwoState)
       (getWheels sampleCatalog scopeTwoState.currentVersion)) :=
  ⟨by decide, by decide,
    scope_family_and_order sampleCatalog scopeTwoState (by decide) (by decide) (by decide)⟩

/-- C4 (counterexample): for searchText "ABC" and an entry whose version field
is "ABC", the query is trivially a case-insensitive substring of the version
field, yet the search predicate of the code rejects the entry: only the query
is lowercased, the version, cuda, python and framework fields are compared
as they are, so case-insensitivity does not apply to all five fields. -/
theorem search_case_insensitive_counterexample :
    ciSearch c4Wheel "ABC" = true ∧ searchPred c4Wheel "ABC" = false := by
  decide

/-- C4 (amended): for every entry and non-empty searchText, the search
predicate holds iff the LOWERCASED query occurs as a substring of the raw
version, cudaVersion, pythonVersion or frameworkVersion field, or of the
lowercased platform field: the match is case-insensitive only in the query
and in the platform field. -/
theorem search_lowercased_query_characterization (w : Wheel) (q : String) (hq : q ≠ "") :
    searchPred w q = true ↔
      ((∃ p t, p ++ (jsToLower q).toList ++ t = w.v.toList) ∨
       (∃ p t, p ++ (jsToLower q).toList ++ t = w.cuda.toList) ∨
       (∃ p t, p ++ (jsToLower q).toList ++ t = w.py.toList) ∨
       (∃ p t, p ++ (jsToLower q).toList ++ t = w.torch.toList) ∨
       (∃ p t, p ++ (jsToLower q).toList ++ t = (jsToLower w.os).toList)) := by
  unfold searchPred jsIncludes
  simp only [Bool.or_eq_true, jsIncludesCore_iff, or_assoc]

/-- C4 (witness): the characterization instantiated at sampleWheelA and the
query "12.1". -/
theorem search_lowercased_query_characterization_witness :
    ("12.1" : String) ≠ "" ∧
    (searchPred sampleWheelA "12.1" = true ↔
      ((∃ p t, p ++ (jsToLower "12.1").toList ++ t = sampleWheelA.v.toList) ∨
       (∃ p t, p ++ (jsToLower "12.1").toList ++ t = sampleWheelA.cuda.toList) ∨
       (∃ p t, p ++ (jsToLower "12.1").toList ++ t = sampleWheelA.py.toList) ∨
       (∃ p t, p ++ (jsToLower "12.1").toList ++ t = sampleWheelA.torch.toList) ∨
       (∃ p t, p ++ (jsToLower "12.1").toList ++ t = (jsToLower sampleWheelA.os).toList))) :=
  ⟨by decide, search_lowercased_query_characterization sampleWheelA "12.1" (by decide)⟩

/-- C5 (counterexample): on the platform facet of the sample catalog (whose
values parse as NaN), the non-empty value list produced by getUnique is not
in descending order of parsed float values, since no order relation holds
between NaN values: the claimed ordering fails for non-numeric facets. -/
theorem facet_values_sort_counterexample :
    sortedByParseFloatDesc (getUnique sampleCatalog "all" Facet.platform) = false ∧
    getUnique sampleCatalog "all" Facet.platform ≠ [] := by
  decide

/-- C5 (amended): for every facet and scope, getUnique returns exactly the
distinct facet values of the entries in scope, each value once - with no
condition on the facet; and when additionally every such value parses as a
finite number, the list is ordered descending by the parsed value. -/
theorem facet_values_distinct_sorted (cat : Catalog) (cv : String) (key : Facet) :
    (getUnique cat cv key).Nodup ∧
    (∀ s, s ∈ getUnique cat cv key ↔ s ∈ (getWheels cat cv).map (wheelKey key)) ∧
    ((∀ s ∈ (getWheels cat cv).map (wheelKey key), (parseFloat s).isFin = true) →
      sortedByParseFloatDesc (getUnique cat cv key) = true) := by
  unfold getUnique
  refine ⟨?_, ?_, ?_⟩
  · exact ((List.perm_insertionSort jsSortLe _).nodup_iff).mpr (nodup_setDedup _)
  · intro s
    rw [List.mem_insertionSort jsSortLe, mem_setDedup]
  · intro hfin
    have hfin2 : ∀ s ∈ setDedup ((getWheels cat cv).map (wheelKey key)),
        (parseFloat s).isFin = true :=
      fun s hs => hfin s ((mem_setDedup _ _).mp hs)
    exact sortedBool_of_pairwise _
      (fun s hs => hfin2 s ((List.mem_insertionSort jsSortLe).mp hs))
      (pairwise_insertionSort_fin _ hfin2)

/-- C5 (witness): the cuda facet of the sample catalog under scope "2": the
derived list is distinct and matches the facet values in scope, all values
parse as finite numbers, and the list is descending. -/
theorem facet_values_distinct_sorted_witness :
    (getUnique sampleCatalog "2" Facet.cuda).Nodup ∧
    (∀ s, s ∈ getUnique sampleCatalog "2" Facet.cuda ↔
       s ∈ (getWheels sampleCatalog "2").map (wheelKey Facet.cuda)) ∧
    sortedByParseFloatDesc (getUnique sampleCatalog "2" Facet.cuda) = true :=
  ⟨(facet_values_distinct_sorted sampleCatalog "2" Facet.cuda).1,
   (facet_values_distinct_sorted sampleCatalog "2" Facet.cuda).2.1,
   (facet_values_distinct_sorted sampleCatalog "2" Facet.cuda).2.2 (by decide)⟩

/-- C6: clearFilters resets every facet filter to "all" and the search text to
the empty string, leaves the version scope unchanged, and afterwards the
visible-entry count of filterWheels equals the size of the scoped catalog. -/
theorem clearFilters_resets_and_full_count (cat : Catalog) (st : AppState) :
    (clearFilters st).filters = defaultFilters ∧
    (clearFilters st).searchQuery = "" ∧
    (clearFilters st).currentVersion = st.currentVersion ∧
    (filterWheels cat (clearFilters st)).length = (getWheels cat st.currentVersion).length := by
  refine ⟨rfl, rfl, rfl, ?_⟩
  unfold filterWheels
  have h : ∀ w ∈ getWheels cat (clearFilters st).currentVersion,
      wheelPred (clearFilters st).filters (clearFilters st).searchQuery w = true := by
    intro w _
    rfl
  rw [List.filter_eq_self.mpr h]
  rfl

/-- C7: clearFilters is idempotent: applying it twice gives the same state and
the same derived view (filtered entries plus facet value lists) as applying it
once. -/
theorem clearFilters_idempotent (cat : Catalog) (st : AppState) :
    clearFilters (clearFilters st) = clearFilters st ∧
    derivedView cat (clearFilters (clearFilters st)) = derivedView cat (clearFilters st) :=
  ⟨rfl, rfl⟩

/-- C8: filterWheels is a pure function of the catalog, the version scope, the
facet filters and the search text: two states agreeing on those three fields
produce identical output, whatever else (such as the search input DOM value)
differs. -/
theorem filterWheels_deterministic (cat : Catalog) (st1 st2 : AppState)
    (hv : st1.currentVersion = st2.currentVersion)
    (hf : st1.filters = st2.filters)
    (hq : st1.searchQuery = st2.searchQuery) :
    filterWheels cat st1 = filterWheels cat st2 := by
  unfold filterWheels
  rw [hv, hf, hq]

/-- C8 (witness): two states that differ only in the search input DOM value
yield the same filtered list. -/
theorem filterWheels_deterministic_witness :
    filterWheels sampleCatalog
      { currentVersion := "all", filters := defaultFilters, searchQuery := "", searchInput := "left" } =
    filterWheels sampleCatalog
      { currentVersion := "all", filters := defaultFilters, searchQuery := "", searchInput := "right" } :=
  filterWheels_deterministic sampleCatalog _ _ rfl rfl rfl

/-- C9: evaluation of the copyCmd timer model at the failing input of two
invocations at 0 ms and 1000 ms. The copied indicator is already gone at
1600 ms, i.e. before 1000 + 1500 ms: the revert happens 1500 ms after the
FIRST invocation, because copyCmd stacks a second setTimeout instead of
resetting the pending one. It is still shown at 1400 ms, and the visible
revert happens exactly once (the second callback finds the flag already
cleared). -/
theorem copyCmd_double_invocation_eval :
    buttonCopied [0, 1000] 1600 = false ∧
    buttonCopied [0, 1000] 1400 = true ∧
    revertCount [0, 1000] = 1 ∧
    1600 < 1000 + 1500 := by
  decide

/-- C10: any currentVersion other than the exact strings "2" and "3" -
"all" as well as any unvalidated string - makes getWheels return the
concatenation of the family-2 entries followed by the family-3 entries. -/
theorem invalid_scope_behaves_as_all (cat : Catalog) (cv : String)
    (h2 : cv ≠ "2") (h3 : cv ≠ "3") :
    getWheels cat cv = cat.flashAttn2 ++ cat.flashAttn3 :=
  getWheels_fallthrough cat cv h2 h3

/-- C10 (witness): the fallthrough instantiated at the unvalidated scope
string "bogus". -/
theorem invalid_scope_behaves_as_all_witness :
    ("bogus" : String) ≠ "2" ∧ ("bogus" : String) ≠ "3" ∧
    getWheels sampleCatalog "bogus" = sampleCatalog.flashAttn2 ++ sampleCatalog.flashAttn3 :=
  ⟨by decide, by decide, invalid_scope_behaves_as_all sampleCatalog "bogus" (by decide) (by decide)⟩

end FlashWheels
